import Mathlib

/-!
Verification development for the quiz-editor repository.

The development shallowly embeds the repository's data model (rich-text
documents, artifacts, links, projects, quiz questions and banks), its two
Zustand stores, the storage adapter (interface in
`src/lib/storage/interface.ts`; the `SupabaseStorage` upsert sketch and the
SQL schema with its `ON DELETE CASCADE` clauses are the concrete sources for
the write paths), and — where the repository contains only declarations —
models the storage error behaviour, the migration engine and the interchange
codec from the specification, as marked on each definition.

Timestamps and user ids are modelled as `String` (ISO 8601 timestamps compare
chronologically via lexicographic string order for a fixed format, which is
how the repository itself compares them). Opaque `data: unknown` payloads of
generic artifacts are modelled as `String` (their serialized JSON form).
-/

-- ============================================================
-- Document model (src/types/core/artifact.ts, src/types/artifact.ts)
-- ============================================================

/-- Rich-text mark, embedded from `TiptapMark` (`type: string`,
`attrs?: Record<string, unknown>`); attribute records are modelled as
key/value string lists since their values are opaque `unknown`. -/
structure TiptapMark where
  type : String
  attrs : List (String × String)

/-- Rich-text tree node, embedded from `TiptapNode` (`type: string`,
`content?: TiptapNode[]`, `text?: string`, `marks?: TiptapMark[]`,
`attrs?: Record<string, unknown>`). An absent `content`/`marks`/`attrs`
is modelled as the empty list; the optional `text` keeps its optionality
because presence of a text run is significant for plain-text extraction. -/
inductive TiptapNode where
  | mk (type : String) (content : List TiptapNode) (text : Option String)
       (marks : List TiptapMark) (attrs : List (String × String))

/-- Rich-text document, embedded from `TiptapJSON`: the root is always
`type: 'doc'` (kept implicit) with an ordered list of block-level nodes. -/
structure TiptapJSON where
  content : List TiptapNode

-- ============================================================
-- Plain-text projection (Modelled from the spec, section 4.1:
-- the Document Model operations are not implemented under src/)
-- ============================================================

/-- Line splitting on the newline character, used by the plain-text codec. -/
def splitLines (s : String) : List String := (s.data.splitOn '\n').map String.mk

/-- Line joining with a single newline character between lines. -/
def joinLines (ls : List String) : String :=
  String.mk (List.intercalate ['\n'] (ls.map String.data))

mutual

/-- Depth-first concatenation of the text runs of one node: the node's own
text (if any) followed by the text of its children, marks discarded.
Modelled from the spec, section 4.1. -/
def nodeText : TiptapNode → String
  | .mk _ content text _ _ => text.getD "" ++ nodesText content

/-- Depth-first concatenation of the text runs of a node list. -/
def nodesText : List TiptapNode → String
  | [] => ""
  | n :: ns => nodeText n ++ nodesText ns

end

/-- Modelled from the spec: `extractPlainText(doc) -> string` (section 4.1) is
not implemented under src/. Depth-first concatenation of all text runs,
block-level (top-level) nodes separated by a single line break, marks
discarded. -/
def extractPlainText (doc : TiptapJSON) : String :=
  joinLines (doc.content.map nodeText)

/-- Modelled from the spec: `fromPlainText(text) -> Document` (section 4.1) is
not implemented under src/. One paragraph node per input line, each line a
single unformatted text run. -/
def fromPlainText (text : String) : TiptapJSON :=
  ⟨(splitLines text).map (fun line =>
    TiptapNode.mk "paragraph" [TiptapNode.mk "text" [] (some line) [] []] none [] [])⟩

-- ============================================================
-- Artifact model
-- ============================================================

namespace Core

/-- Audit metadata, embedded from `ArtifactMetadata` in
`src/types/core/artifact.ts` (= `src/unnamed/part_009`, lines 233-242) and
identically in `src/types/idide`: all four audit fields are required and
non-nullable (`UUID`/`ISODateTime` are aliases of `string`). -/
structure ArtifactMetadata where
  created_by : String
  created_at : String
  modified_at : String
  modified_by : String
deriving DecidableEq

/-- Universal artifact envelope, embedded from `Artifact` in
`src/types/core/artifact.ts`; the opaque `data: unknown` payload is modelled
as its serialized string. -/
structure Artifact where
  id : String
  project_id : String
  type : String
  schema_version : String
  metadata : ArtifactMetadata
  data : String
deriving DecidableEq

end Core

namespace AppTypes

/-- Audit metadata, embedded from `ArtifactMetadata` in
`src/types/artifact.ts` lines 28-32: only three fields are declared there
(`created_by`, `created_at`, `modified_at`); there is no `modified_by`. -/
structure ArtifactMetadata where
  created_by : String
  created_at : String
  modified_at : String
deriving DecidableEq

end AppTypes

/-- Field names of `ArtifactMetadata` as declared in `src/types/artifact.ts`
lines 28-32, in declaration order. All three are required (non-optional,
non-nullable `string`). -/
def appArtifactMetadataFields : List String :=
  ["created_by", "created_at", "modified_at"]

/-- Field names of `ArtifactMetadata` as declared in
`src/types/core/artifact.ts` (`src/unnamed/part_009` lines 233-242), in
declaration order. All four are required (non-optional, non-nullable). -/
def coreArtifactMetadataFields : List String :=
  ["created_by", "created_at", "modified_at", "modified_by"]

/-- The four audit fields named by the specification (section 3):
createdBy, createdAt, modifiedAt, modifiedBy. -/
def auditFields : List String :=
  ["created_by", "created_at", "modified_at", "modified_by"]

-- ============================================================
-- Link and project model (src/types/core/link.ts, src/types/idide/project.ts)
-- ============================================================

/-- Link relationship, embedded from `LinkRelationship` in
`src/types/core/link.ts`. -/
inductive LinkRelationship where
  | assesses
  | derived_from
  | contains
deriving DecidableEq

/-- Directional artifact link, embedded from `ArtifactLink` in
`src/types/core/link.ts`. -/
structure ArtifactLink where
  id : String
  project_id : String
  source_id : String
  target_id : String
  relationship : LinkRelationship
  created_by : String
  created_at : String
deriving DecidableEq

/-- Project record, embedded from `Project` in `src/types/idide/project.ts`
(the `description?` field is optional there). -/
structure Project where
  id : String
  name : String
  description : Option String
  owner_id : String
  created_at : String
  updated_at : String
deriving DecidableEq

-- ============================================================
-- Quiz Editor payload types (src/types/quiz-editor/question.ts, bank.ts)
-- ============================================================

/-- Question format, embedded from `QUESTION_FORMS` / `QuestionForm` in
`src/types/quiz-editor/question.ts`. -/
inductive QuestionForm where
  | multiple_choice
  | multiple_response
  | true_false
deriving DecidableEq

/-- Answer option, embedded from `QuizQuestionAnswer` in
`src/types/quiz-editor/question.ts`. -/
structure QuizQuestionAnswer where
  id : String
  text : TiptapJSON
  is_correct : Bool

/-- Feedback pair, embedded from `QuizQuestionFeedback`. -/
structure QuizQuestionFeedback where
  correct : TiptapJSON
  incorrect : TiptapJSON

/-- Question settings, embedded from `QuizQuestionSettings` (all fields
optional; the numeric fields are modelled as `Nat`). -/
structure QuizQuestionSettings where
  points : Option Nat
  attempts : Option Nat
  randomize : Option Bool

/-- Question payload, embedded from `QuizQuestionData` in
`src/types/quiz-editor/question.ts`. -/
structure QuizQuestionData where
  question_type : QuestionForm
  prompt : TiptapJSON
  answers : List QuizQuestionAnswer
  feedback : QuizQuestionFeedback
  settings : QuizQuestionSettings

/-- Quiz question artifact, embedded from `QuizQuestion extends Artifact`
with `type: 'quiz-question'` narrowed and `data: QuizQuestionData`; the
`type` field stays a plain string as in the envelope. Its metadata is the
core-framework `ArtifactMetadata` (the question type is declared against
`../core/`). -/
structure QuizQuestion where
  id : String
  project_id : String
  type : String
  schema_version : String
  metadata : Core.ArtifactMetadata
  data : QuizQuestionData

/-- Bank settings, embedded from `QuizBankSettings` in
`src/types/quiz-editor/bank.ts` (numeric fields modelled as `Nat`). -/
structure QuizBankSettings where
  passing_grade : Option Nat
  attempts_allowed : Option Nat

/-- Bank payload, embedded from `QuizBankData` in
`src/types/quiz-editor/bank.ts`. -/
structure QuizBankData where
  title : String
  description : Option String
  question_ids : List String
  settings : QuizBankSettings

/-- Question bank artifact, embedded from `QuizBank extends Artifact` with
`type: 'question-bank'` narrowed and `data: QuizBankData`. -/
structure QuizBank where
  id : String
  project_id : String
  type : String
  schema_version : String
  metadata : Core.ArtifactMetadata
  data : QuizBankData

-- ============================================================
-- Type guards (src/types/quiz-editor/question.ts 68-70, bank.ts 34-36)
-- ============================================================

/-- Type guard, embedded from `isQuizQuestion` in
`src/types/quiz-editor/question.ts` lines 68-70:
`return artifact.type === 'quiz-question'`. -/
def isQuizQuestion (artifact : Core.Artifact) : Bool :=
  artifact.type == "quiz-question"

/-- Type guard, embedded from `isQuizBank` in
`src/types/quiz-editor/bank.ts` lines 34-36:
`return artifact.type === 'question-bank'`. -/
def isQuizBank (artifact : Core.Artifact) : Bool :=
  artifact.type == "question-bank"

-- ============================================================
-- Storage adapter (src/lib/storage/interface.ts; concrete behaviour from
-- src/unnamed/part_014 lines 747-757 and the SQL schema in
-- src/unnamed/part_000 lines 443-463)
-- ============================================================

/-- Distinguishable storage error. Modelled from the spec, section 7:
`NotFoundError` is surfaced only on update/delete of a nonexistent id; the
repository declares the adapter interface but contains no implementation of
its error paths. -/
inductive StorageError where
  | notFound (id : String)
deriving DecidableEq

/-- Backing-store state: the three tables `projects`, `artifacts` and
`artifact_links` of the SQL schema in `src/unnamed/part_000` lines 420-463,
modelled as row lists. -/
structure Storage where
  projects : List Project
  artifacts : List Core.Artifact
  links : List ArtifactLink
deriving DecidableEq

/-- Read path `getProject(id) -> Project | null`
(`src/lib/storage/interface.ts`): first row whose primary key matches,
`none` when absent. -/
def getProject (st : Storage) (id : String) : Option Project :=
  st.projects.find? (fun p => p.id == id)

/-- Read path `getArtifact(id) -> Artifact | null`
(`src/lib/storage/interface.ts`): first row whose primary key matches,
`none` when absent. -/
def getArtifact (st : Storage) (id : String) : Option Core.Artifact :=
  st.artifacts.find? (fun a => a.id == id)

/-- Read path `getArtifacts(projectId, type?) -> Artifact[]`
(`src/lib/storage/interface.ts`): all rows of the project, optionally
filtered by exact type string. -/
def getArtifacts (st : Storage) (projectId : String) (type? : Option String) :
    List Core.Artifact :=
  st.artifacts.filter (fun a =>
    a.project_id == projectId &&
      (match type? with
       | some t => a.type == t
       | none => true))

/-- Read path `getLinks(projectId) -> ArtifactLink[]`
(`src/lib/storage/interface.ts`). -/
def getLinks (st : Storage) (projectId : String) : List ArtifactLink :=
  st.links.filter (fun l => l.project_id == projectId)

/-- Write path embedded from `SupabaseStorage.saveArtifact` in
`src/unnamed/part_014` lines 747-757: a plain
`supabase.from('artifacts').upsert(\x7b id, project_id, type, schema_version,
data, metadata \x7d)` — the row with the same primary key is replaced by the
caller-supplied column values verbatim (or inserted when absent). The code
performs no metadata preservation and does not touch `modified_at`. -/
def saveArtifact (st : Storage) (artifact : Core.Artifact) : Storage :=
  if st.artifacts.any (fun a => a.id == artifact.id) then
    { st with artifacts :=
        st.artifacts.map (fun a => if a.id == artifact.id then artifact else a) }
  else
    { st with artifacts := st.artifacts ++ [artifact] }

/-- Write path `deleteArtifact(id)`: `DELETE FROM artifacts WHERE id = ?`.
The `artifact_links` table (`src/unnamed/part_000` lines 455-463) carries no
foreign key to `artifacts`, so the delete touches no link row. Modelled from
the spec for the not-found error (section 7). -/
def deleteArtifact (st : Storage) (id : String) : Except StorageError Storage :=
  if st.artifacts.any (fun a => a.id == id) then
    .ok { st with artifacts := st.artifacts.filter (fun a => a.id != id) }
  else
    .error (.notFound id)

/-- Write path `deleteProject(id)`: `DELETE FROM projects WHERE id = ?`;
the `artifacts.project_id` and `artifact_links.project_id` foreign keys are
declared `ON DELETE CASCADE` (`src/unnamed/part_000` lines 443-463), so all
artifact and link rows of the project are deleted with it. Modelled from the
spec for the not-found error (section 7). -/
def deleteProject (st : Storage) (id : String) : Except StorageError Storage :=
  if st.projects.any (fun p => p.id == id) then
    .ok { projects := st.projects.filter (fun p => p.id != id),
          artifacts := st.artifacts.filter (fun a => a.project_id != id),
          links := st.links.filter (fun l => l.project_id != id) }
  else
    .error (.notFound id)

/-- Write path `deleteLink(id)`. Modelled from the spec for the not-found
error (section 7). -/
def deleteLink (st : Storage) (id : String) : Except StorageError Storage :=
  if st.links.any (fun l => l.id == id) then
    .ok { st with links := st.links.filter (fun l => l.id != id) }
  else
    .error (.notFound id)

/-- Caller-supplied partial update for
`updateProject(id, partial with name and description)`
(`src/lib/storage/interface.ts`): a field set to `none` is absent from the
partial object. -/
structure ProjectUpdates where
  name : Option String
  description : Option String

/-- Write path `updateProject(id, updates) -> Project`. Modelled from the
spec (sections 4.4 and 7): only `name`/`description` change, `updated_at` is
advanced to the current time, and a nonexistent id surfaces `NotFoundError`.
The current time is passed explicitly (`now`) since the embedding is pure. -/
def updateProject (st : Storage) (id : String) (updates : ProjectUpdates)
    (now : String) : Except StorageError (Project × Storage) :=
  match getProject st id with
  | none => .error (.notFound id)
  | some p =>
    let p' : Project :=
      { p with
        name := updates.name.getD p.name,
        description :=
          match updates.description with
          | some d => some d
          | none => p.description,
        updated_at := now }
    .ok (p', { st with projects := st.projects.map (fun q => if q.id == id then p' else q) })

-- ============================================================
-- Migration engine (Modelled from the spec, section 4.3: the repository
-- declares `schema_version` but contains no migration engine under src/)
-- ============================================================

/-- Modelled from the spec: a registered transition
`migrate_vN_to_vN+1(payload) -> payload'` for one artifact type, from one
schema version to the next. The payload transformation acts on the opaque
serialized payload. -/
structure MigrationStep where
  artifactType : String
  fromVersion : String
  toVersion : String
  migrate : String → String

/-- Modelled from the spec: the per-type state machine of section 4.3 —
registered transitions plus the current version for each artifact type. -/
structure MigrationRegistry where
  steps : List MigrationStep
  currentVersion : String → String

/-- Modelled from the spec (section 7): `MigrationError` names the version
gap for which no transition is registered. -/
inductive MigrationError where
  | missingTransition (artifactType fromVersion currentVersion : String)
deriving DecidableEq

/-- Lookup of the single registered transition out of a version for a type. -/
def findStep (reg : MigrationRegistry) (t v : String) : Option MigrationStep :=
  reg.steps.find? (fun s => s.artifactType == t && s.fromVersion == v)

/-- Fuel-indexed migration walk: apply the next-version transition until the
artifact's `schema_version` equals the type's current version, or fail fast
with a `MigrationError` naming the gap. -/
def resolveAux (reg : MigrationRegistry) : Nat → Core.Artifact → Except MigrationError Core.Artifact
  | 0, a =>
    if a.schema_version == reg.currentVersion a.type then .ok a
    else .error (.missingTransition a.type a.schema_version (reg.currentVersion a.type))
  | fuel + 1, a =>
    if a.schema_version == reg.currentVersion a.type then .ok a
    else
      match findStep reg a.type a.schema_version with
      | none => .error (.missingTransition a.type a.schema_version (reg.currentVersion a.type))
      | some s => resolveAux reg fuel { a with schema_version := s.toVersion, data := s.migrate a.data }

/-- Modelled from the spec: `resolveToCurrent(artifact) -> Artifact`
(section 4.3) is not implemented under src/. Repeatedly applies the single
next-version migration until `schema_version` equals the type's current
version, failing fast when no transition is registered. The walk is bounded
by the number of registered transitions: a walk longer than that revisits a
version and could never reach the current version anyway. -/
def resolveToCurrent (reg : MigrationRegistry) (a : Core.Artifact) : Except MigrationError Core.Artifact :=
  resolveAux reg reg.steps.length a

-- ============================================================
-- Quiz Editor store (src/store/quiz-editor-store.ts; the identical
-- reducers in src/store/app-store.ts lines 61-81 are covered by the
-- same embedding)
-- ============================================================

/-- Quiz Editor store state, embedded from `QuizEditorState` in
`src/store/quiz-editor-store.ts` (`currentBank`, `questions`,
`selectedQuestionId`; the action closures are embedded as the functions
below). -/
structure QuizEditorState where
  currentBank : Option QuizBank
  questions : List QuizQuestion
  selectedQuestionId : Option String

/-- Caller-supplied `Partial<QuizQuestion['data']>` for `updateQuestion`:
a field set to `none` is absent from the partial object. -/
structure QuizDataUpdates where
  question_type : Option QuestionForm
  prompt : Option TiptapJSON
  answers : Option (List QuizQuestionAnswer)
  feedback : Option QuizQuestionFeedback
  settings : Option QuizQuestionSettings

/-- Embedding of `Object.assign(question.data, updates)` in
`src/store/quiz-editor-store.ts` line 258: every key present in `updates`
overwrites the corresponding field of `data`; absent keys leave it. -/
def objectAssign (d : QuizQuestionData) (u : QuizDataUpdates) : QuizQuestionData :=
  { question_type := u.question_type.getD d.question_type,
    prompt := u.prompt.getD d.prompt,
    answers := u.answers.getD d.answers,
    feedback := u.feedback.getD d.feedback,
    settings := u.settings.getD d.settings }

/-- In-place update of the first question whose `id` matches, as performed by
`state.questions.find((q) => q.id === id)` followed by the Immer draft
mutation in `updateQuestion` (`src/store/quiz-editor-store.ts` lines
254-261): the found question's `data` is merged with the updates and its
`metadata.modified_at` is set to the current time. -/
def updateQuestionList (id : String) (u : QuizDataUpdates) (now : String) :
    List QuizQuestion → List QuizQuestion
  | [] => []
  | q :: qs =>
    if q.id == id then
      { q with
        data := objectAssign q.data u,
        metadata := { q.metadata with modified_at := now } } :: qs
    else
      q :: updateQuestionList id u now qs

/-- Embedding of the `updateQuestion` action
(`src/store/quiz-editor-store.ts` lines 254-261). `new Date().toISOString()`
is impure, so the current time is the explicit `now` parameter. When no
question matches the id, the state is unchanged. -/
def updateQuestion (st : QuizEditorState) (id : String) (u : QuizDataUpdates)
    (now : String) : QuizEditorState :=
  { st with questions := updateQuestionList id u now st.questions }

/-- Embedding of the `deleteQuestion` action
(`src/store/quiz-editor-store.ts` lines 268-274):
`questions = questions.filter((q) => q.id !== id)` and the selection is
cleared exactly when it equalled the deleted id (`null === id` is false in
the source since `id` is a string, so a null selection stays null). -/
def deleteQuestion (st : QuizEditorState) (id : String) : QuizEditorState :=
  { currentBank := st.currentBank,
    questions := st.questions.filter (fun q => q.id != id),
    selectedQuestionId :=
      if st.selectedQuestionId == some id then none else st.selectedQuestionId }

-- ============================================================
-- Interchange codec (Modelled from the spec, sections 4.5 and 6: the
-- codec is not implemented under src/)
-- ============================================================

/-- Modelled from the spec (section 6): one row of the interchange tabular
format. `answers` holds the ordered `Answer1..AnswerN` cells; the other
fields are the remaining named columns. The artifact envelope (ids,
metadata) of imported rows is generated impurely by the caller and is not
part of the codec model, which works on question payloads. -/
structure TabularRow where
  typeCol : String
  question : String
  answers : List String
  correctAnswer : String
  correctFeedback : String
  incorrectFeedback : String

/-- Modelled from the spec (section 6): the fixed 1:1 mapping from
`questionForm` to the external tool's `Type` label. -/
def formLabel : QuestionForm → String
  | .multiple_choice => "Multiple Choice"
  | .multiple_response => "Multiple Response"
  | .true_false => "True/False"

/-- Modelled from the spec (section 6): the fixed lookup from a `Type` label
to `questionForm`; an unknown label fails the lookup. -/
def labelForm (label : String) : Option QuestionForm :=
  if label == "Multiple Choice" then some .multiple_choice
  else if label == "Multiple Response" then some .multiple_response
  else if label == "True/False" then some .true_false
  else none

/-- Numeric value of a decimal digit character. -/
def charDigit (c : Char) : Nat := c.toNat - 48

/-- Decimal digit test on a character. -/
def isDigitCh (c : Char) : Bool := 48 ≤ c.toNat && c.toNat ≤ 57

/-- Fuel-indexed most-significant-first decimal rendering of a number. -/
def natToCharsAux : Nat → Nat → List Char
  | 0, _ => []
  | fuel + 1, n =>
    if n = 0 then [] else natToCharsAux fuel (n / 10) ++ [Nat.digitChar (n % 10)]

/-- Decimal rendering of a positive number (`n` itself is enough fuel). -/
def natToChars (n : Nat) : List Char := natToCharsAux n n

/-- Accumulating decimal value of a digit string. -/
def charsValAux : List Char → Nat → Nat
  | [], acc => acc
  | c :: cs, acc => charsValAux cs (acc * 10 + charDigit c)

/-- Decimal parse of a nonempty all-digit character list. -/
def charsToNat? (cs : List Char) : Option Nat :=
  if cs ≠ [] ∧ cs.all isDigitCh then some (charsValAux cs 0) else none

/-- Modelled from the spec (section 6): the `CorrectAnswer` cell is the
comma-separated list of 1-based answer indices. -/
def encodeIndices (idxs : List Nat) : String :=
  String.mk (List.intercalate [','] (idxs.map natToChars))

/-- Parse of every chunk of a comma-split cell; any bad chunk fails the
whole cell. -/
def parseAll : List (List Char) → Option (List Nat)
  | [] => some []
  | c :: cs =>
    match charsToNat? c, parseAll cs with
    | some n, some ns => some (n :: ns)
    | _, _ => none

/-- Modelled from the spec (section 6): parse of the comma-separated 1-based
index list of the `CorrectAnswer` cell. -/
def parseIndices (s : String) : Option (List Nat) :=
  parseAll (s.data.splitOn ',')

/-- One-based positions (starting at `k`) of the answers flagged correct. -/
def correctPositions : List QuizQuestionAnswer → Nat → List Nat
  | [], _ => []
  | a :: as, k =>
    if a.is_correct then k :: correctPositions as (k + 1)
    else correctPositions as (k + 1)

/-- Number of answers flagged correct. -/
def countCorrect (answers : List QuizQuestionAnswer) : Nat :=
  (answers.filter (fun a => a.is_correct)).length

/-- Modelled from the spec (section 3 payload invariants, checked by
`validate` per section 4.2): true/false questions have exactly two answers
and exactly one correct answer (section 8), single-correct questions exactly
one correct answer, multi-correct questions at least one. -/
def validQuestionData (q : QuizQuestionData) : Bool :=
  match q.question_type with
  | .multiple_choice => countCorrect q.answers == 1
  | .multiple_response => decide (1 ≤ countCorrect q.answers)
  | .true_false => q.answers.length == 2 && countCorrect q.answers == 1

/-- Modelled from the spec (section 7): reason codes of `RowError`. -/
inductive RowErrorCode where
  | unknownTypeLabel
  | malformedCorrectAnswer
  | correctIndexOutOfRange
  | invalidAnswerOrCorrectCount
deriving DecidableEq

/-- Modelled from the spec (sections 4.5 and 7): a single bad interchange
row, reported with its 1-based row number and a reason code. -/
structure RowError where
  row : Nat
  code : RowErrorCode
deriving DecidableEq

/-- Construction of the ordered answer list of an imported row: answer `k`
(1-based) takes its rich text from the k-th nonblank cell via
`fromPlainText` and is flagged correct exactly when `k` appears in the
parsed `CorrectAnswer` indices. Answer ids are generated impurely by the
caller in the source; the model uses the rendered position. -/
def buildAnswersAux (idxs : List Nat) : List String → Nat → List QuizQuestionAnswer
  | [], _ => []
  | c :: cs, k =>
    { id := String.mk (natToChars k),
      text := fromPlainText c,
      is_correct := idxs.contains k } :: buildAnswersAux idxs cs (k + 1)

/-- Modelled from the spec (section 4.5): conversion of one tabular row into
one quiz-question payload, or a reason code. Type-label lookup, blank-cell
skipping, correct-index range checking and the section-3 invariant check
follow the column contract of sections 4.5 and 6. -/
def importRow (row : TabularRow) : Except RowErrorCode QuizQuestionData :=
  match labelForm row.typeCol with
  | none => .error .unknownTypeLabel
  | some form =>
    let cells := row.answers.filter (fun c => c != "")
    match parseIndices row.correctAnswer with
    | none => .error .malformedCorrectAnswer
    | some idxs =>
      if idxs.all (fun i => 1 ≤ i && i ≤ cells.length) then
        let data : QuizQuestionData :=
          { question_type := form,
            prompt := fromPlainText row.question,
            answers := buildAnswersAux idxs cells 1,
            feedback :=
              { correct := fromPlainText row.correctFeedback,
                incorrect := fromPlainText row.incorrectFeedback },
            settings := { points := none, attempts := none, randomize := none } }
        if validQuestionData data then .ok data
        else .error .invalidAnswerOrCorrectCount
      else .error .correctIndexOutOfRange

/-- Result of `importRecords`: converted payloads plus the collected
row-level errors. -/
structure ImportResult where
  artifacts : List QuizQuestionData
  errors : List RowError

/-- Row-by-row import walk carrying the 1-based row number: a bad row is
isolated into `errors` and never aborts the batch. -/
def importRecordsAux : List TabularRow → Nat → ImportResult
  | [], _ => { artifacts := [], errors := [] }
  | r :: rs, n =>
    let rest := importRecordsAux rs (n + 1)
    match importRow r with
    | .ok q => { artifacts := q :: rest.artifacts, errors := rest.errors }
    | .error c => { artifacts := rest.artifacts, errors := { row := n, code := c } :: rest.errors }

/-- Modelled from the spec (section 4.5):
`importRecords(rows) -> artifacts and errors`, rows numbered from 1. -/
def importRecords (rows : List TabularRow) : ImportResult :=
  importRecordsAux rows 1

/-- Modelled from the spec (sections 4.5 and 6): conversion of one question
payload into one tabular row; prose fields are projected through
`extractPlainText` and the correct flags are re-encoded as the
comma-separated 1-based index list. -/
def exportRow (q : QuizQuestionData) : TabularRow :=
  { typeCol := formLabel q.question_type,
    question := extractPlainText q.prompt,
    answers := q.answers.map (fun a => extractPlainText a.text),
    correctAnswer := encodeIndices (correctPositions q.answers 1),
    correctFeedback := extractPlainText q.feedback.correct,
    incorrectFeedback := extractPlainText q.feedback.incorrect }

/-- Modelled from the spec (section 4.5): `exportRecords(artifacts) ->
TabularRow[]`. -/
def exportRecords (artifacts : List QuizQuestionData) : List TabularRow :=
  artifacts.map exportRow

/-- The question payload produced by a successful `importRow` on `row`, once
the type label resolved to `form` and the `CorrectAnswer` cell parsed to
`idxs` (definitionally the `data` value built inside `importRow`). -/
def importedData (row : TabularRow) (form : QuestionForm) (idxs : List Nat) :
    QuizQuestionData :=
  { question_type := form,
    prompt := fromPlainText row.question,
    answers := buildAnswersAux idxs (row.answers.filter (fun c => c != "")) 1,
    feedback :=
      { correct := fromPlainText row.correctFeedback,
        incorrect := fromPlainText row.incorrectFeedback },
    settings := { points := none, attempts := none, randomize := none } }

-- ============================================================
-- Concrete sample data used by the counterexample and witness theorems
-- ============================================================

/-- An artifact as originally stored: created and last modified by alice. -/
def a1Stored : Core.Artifact :=
  { id := "a1", project_id := "p1", type := "quiz-question", schema_version := "1.0.0",
    metadata :=
      { created_by := "alice", created_at := "2025-01-01T00:00:00Z",
        modified_at := "2025-01-01T00:00:00Z", modified_by := "alice" },
    data := "payload-v1" }

/-- A caller-supplied artifact for the same id whose object alters
`created_by`/`created_at` and does not advance `modified_at`. -/
def a1Resaved : Core.Artifact :=
  { id := "a1", project_id := "p1", type := "quiz-question", schema_version := "1.0.0",
    metadata :=
      { created_by := "bob", created_at := "2025-02-02T00:00:00Z",
        modified_at := "2025-01-01T00:00:00Z", modified_by := "bob" },
    data := "payload-v2" }

/-- Store holding only the originally stored artifact. -/
def c1Store : Storage := { projects := [], artifacts := [a1Stored], links := [] }

/-- A valid single-correct question with two nonblank answers. -/
def qSample : QuizQuestionData :=
  { question_type := .multiple_choice,
    prompt := fromPlainText "What is 2+2?",
    answers :=
      [ { id := "ans1", text := fromPlainText "Three", is_correct := false },
        { id := "ans2", text := fromPlainText "Four", is_correct := true } ],
    feedback :=
      { correct := fromPlainText "Yes", incorrect := fromPlainText "No" },
    settings := { points := none, attempts := none, randomize := none } }

/-- A true/false question that satisfies every section-3 payload invariant
(exactly two answers, exactly one correct) but whose correct answer carries
an empty rich-text document, so its exported `Answer1` cell is blank. -/
def qBlankAnswer : QuizQuestionData :=
  { question_type := .true_false,
    prompt := fromPlainText "Sky is blue.",
    answers :=
      [ { id := "ans1", text := { content := [] }, is_correct := true },
        { id := "ans2", text := fromPlainText "False", is_correct := false } ],
    feedback :=
      { correct := fromPlainText "Yes", incorrect := fromPlainText "No" },
    settings := { points := none, attempts := none, randomize := none } }

/-- A registry with a single quiz-question transition 1.0.0 -> 2.0.0 and
current version 2.0.0 for every type. -/
def regSample : MigrationRegistry :=
  { steps := [ { artifactType := "quiz-question", fromVersion := "1.0.0",
                 toVersion := "2.0.0", migrate := fun d => d } ],
    currentVersion := fun _ => "2.0.0" }

/-- An artifact one schema version behind the registry's current version. -/
def aBehind : Core.Artifact :=
  { a1Stored with schema_version := "1.0.0" }

/-- The artifact `aBehind` after the single registered migration. -/
def aMigrated : Core.Artifact :=
  { aBehind with schema_version := "2.0.0", data := aBehind.data }

/-- The empty store. -/
def emptyStore : Storage := { projects := [], artifacts := [], links := [] }

/-- A project row for the cascade samples. -/
def p1Sample : Project :=
  { id := "p1", name := "Course", description := none, owner_id := "alice",
    created_at := "2025-01-01T00:00:00Z", updated_at := "2025-01-01T00:00:00Z" }

/-- An artifact row in a second project, untouched by the cascade samples. -/
def a2Other : Core.Artifact :=
  { a1Stored with id := "a2", project_id := "p2" }

/-- A link row inside project p1 that references artifact a1. -/
def l1Sample : ArtifactLink :=
  { id := "l1", project_id := "p1", source_id := "bank1", target_id := "a1",
    relationship := .contains, created_by := "alice",
    created_at := "2025-01-01T00:00:00Z" }

/-- Store with one project, two artifacts (one per project) and one link. -/
def cascadeStore : Storage :=
  { projects := [p1Sample], artifacts := [a1Stored, a2Other], links := [l1Sample] }

/-- A quiz-question artifact envelope for the guard samples. -/
def gQuestion : Core.Artifact := a1Stored

/-- A second quiz-question envelope with the same type tag but different id,
payload and metadata. -/
def gQuestionOther : Core.Artifact :=
  { id := "a9", project_id := "p9", type := "quiz-question", schema_version := "9.9.9",
    metadata :=
      { created_by := "zoe", created_at := "2026-01-01T00:00:00Z",
        modified_at := "2026-01-01T00:00:00Z", modified_by := "zoe" },
    data := "other-payload" }

/-- A stored quiz question for the store samples. -/
def storeQuestion : QuizQuestion :=
  { id := "q1", project_id := "p1", type := "quiz-question", schema_version := "1.0.0",
    metadata :=
      { created_by := "alice", created_at := "2025-01-01T00:00:00Z",
        modified_at := "2025-01-02T00:00:00Z", modified_by := "alice" },
    data := qSample }

/-- A second stored quiz question. -/
def storeQuestionB : QuizQuestion :=
  { storeQuestion with id := "q2" }

/-- Editor state holding the two questions with the first one selected. -/
def editorState : QuizEditorState :=
  { currentBank := none,
    questions := [storeQuestion, storeQuestionB],
    selectedQuestionId := some "q1" }

/-- A partial update that replaces only the prompt. -/
def promptUpdate : QuizDataUpdates :=
  { question_type := none,
    prompt := some (fromPlainText "What is 3+3?"),
    answers := none,
    feedback := none,
    settings := none }

-- ============================================================
-- Helper lemmas: plain-text projection
-- ============================================================

/-- Appending the empty string on the right is the identity. -/
theorem string_append_empty (s : String) : s ++ "" = s := by
  cases s with
  | mk d => exact congrArg String.mk (List.append_nil d)

/-- Joining the split lines of a string restores the string. -/
theorem joinLines_splitLines (s : String) : joinLines (splitLines s) = s := by
  cases s with
  | mk d =>
    simp only [joinLines, splitLines, List.map_map]
    have h : (String.data ∘ String.mk) = id := rfl
    rw [h, List.map_id]
    exact congrArg String.mk (List.intercalate_splitOn d '\n')

/-- The text of a one-run paragraph node is exactly its run. -/
theorem nodeText_para (line : String) :
    nodeText (TiptapNode.mk "paragraph"
      [TiptapNode.mk "text" [] (some line) [] []] none [] []) = line := by
  show "" ++ ((line ++ "") ++ "") = line
  rw [string_append_empty, string_append_empty]
  rfl

/-- Plain-text extraction is a left inverse of plain-text parsing: the
documented lossy direction loses formatting, but the projected text itself
survives. -/
theorem extract_fromPlainText (s : String) :
    extractPlainText (fromPlainText s) = s := by
  simp only [extractPlainText, fromPlainText, List.map_map]
  have h : ∀ l ∈ splitLines s,
      (nodeText ∘ fun line => TiptapNode.mk "paragraph"
        [TiptapNode.mk "text" [] (some line) [] []] none [] []) l = id l := by
    intro l _
    exact nodeText_para l
  rw [List.map_congr_left h, List.map_id]
  exact joinLines_splitLines s

-- ============================================================
-- Helper lemmas: decimal index codec
-- ============================================================

/-- Digit value of a rendered digit. -/
theorem charDigit_digitChar : ∀ d, d < 10 → charDigit (Nat.digitChar d) = d := by
  decide

/-- A rendered digit is a digit character. -/
theorem isDigitCh_digitChar : ∀ d, d < 10 → isDigitCh (Nat.digitChar d) = true := by
  decide

/-- A digit character is not the comma separator. -/
theorem isDigitCh_ne_comma (c : Char) (h : isDigitCh c = true) : c ≠ ',' := by
  intro hc
  subst hc
  simp [isDigitCh] at h

/-- Appending one digit multiplies the accumulated value by ten. -/
theorem charsValAux_append (xs : List Char) (c : Char) :
    ∀ acc, charsValAux (xs ++ [c]) acc = (charsValAux xs acc) * 10 + charDigit c := by
  induction xs with
  | nil => intro acc; rfl
  | cons x xs ih =>
    intro acc
    simp only [List.cons_append, charsValAux]
    exact ih _

/-- Every character of a rendered number is a digit. -/
theorem natToCharsAux_all_digits : ∀ fuel n, (natToCharsAux fuel n).all isDigitCh = true := by
  intro fuel
  induction fuel with
  | zero => intro n; rfl
  | succ f ih =>
    intro n
    by_cases h : n = 0
    · simp [natToCharsAux, h]
    · simp [natToCharsAux, if_neg h, List.all_append, ih,
        isDigitCh_digitChar (n % 10) (Nat.mod_lt _ (by norm_num))]

/-- With enough fuel the rendered characters evaluate back to the number. -/
theorem natToCharsAux_val : ∀ fuel n, n ≤ fuel → charsValAux (natToCharsAux fuel n) 0 = n := by
  intro fuel
  induction fuel with
  | zero =>
    intro n h
    simp only [Nat.le_zero] at h
    simp [h, natToCharsAux, charsValAux]
  | succ f ih =>
    intro n h
    by_cases h0 : n = 0
    · simp [natToCharsAux, h0, charsValAux]
    · have hlt : n / 10 < n := Nat.div_lt_self (Nat.pos_of_ne_zero h0) (by norm_num)
      rw [natToCharsAux, if_neg h0, charsValAux_append,
        ih (n / 10) (by omega), charDigit_digitChar (n % 10) (Nat.mod_lt _ (by norm_num))]
      omega

/-- A positive number renders to a nonempty digit list. -/
theorem natToChars_ne_nil (n : Nat) (h : 1 ≤ n) : natToChars n ≠ [] := by
  unfold natToChars
  match n, h with
  | m + 1, _ =>
    rw [natToCharsAux, if_neg (Nat.succ_ne_zero m)]
    simp

/-- Every character of a rendered number is a digit. -/
theorem natToChars_all_digits (n : Nat) : (natToChars n).all isDigitCh = true :=
  natToCharsAux_all_digits n n

/-- The comma separator never occurs inside a rendered number. -/
theorem comma_not_mem_natToChars (n : Nat) : ',' ∉ natToChars n := by
  intro hmem
  have hall := natToChars_all_digits n
  rw [List.all_eq_true] at hall
  exact isDigitCh_ne_comma ',' (hall ',' hmem) rfl

/-- Parsing a rendered positive number restores the number. -/
theorem charsToNat_natToChars (n : Nat) (h : 1 ≤ n) :
    charsToNat? (natToChars n) = some n := by
  unfold charsToNat?
  rw [if_pos ⟨natToChars_ne_nil n h, natToChars_all_digits n⟩]
  exact congrArg some (natToCharsAux_val n n (Nat.le_refl n))

/-- Parsing every chunk of a rendered positive index list restores it. -/
theorem parseAll_map_natToChars :
    ∀ l : List Nat, (∀ i ∈ l, 1 ≤ i) → parseAll (l.map natToChars) = some l := by
  intro l
  induction l with
  | nil => intro _; rfl
  | cons n ns ih =>
    intro hpos
    have hn := hpos n (List.mem_cons_self n ns)
    have hns : ∀ i ∈ ns, 1 ≤ i := fun i hi => hpos i (List.mem_cons_of_mem n hi)
    simp only [List.map_cons, parseAll, charsToNat_natToChars n hn, ih hns]

/-- Parsing a rendered nonempty positive index list restores it. -/
theorem parseIndices_encodeIndices (l : List Nat) (hne : l ≠ [])
    (hpos : ∀ i ∈ l, 1 ≤ i) : parseIndices (encodeIndices l) = some l := by
  unfold parseIndices encodeIndices
  have hx : ∀ chunk ∈ l.map natToChars, ',' ∉ chunk := by
    intro chunk hchunk
    obtain ⟨n, _, rfl⟩ := List.mem_map.mp hchunk
    exact comma_not_mem_natToChars n
  have hls : l.map natToChars ≠ [] := by
    simpa using hne
  show parseAll ((List.intercalate [','] (l.map natToChars)).splitOn ',') = some l
  rw [List.splitOn_intercalate (l.map natToChars) ',' hx hls]
  exact parseAll_map_natToChars l hpos

-- ============================================================
-- Helper lemmas: correct positions and imported answers
-- ============================================================

/-- The type-label lookup inverts the label rendering. -/
theorem labelForm_formLabel (f : QuestionForm) : labelForm (formLabel f) = some f := by
  cases f <;> rfl

/-- Correct positions counted from `k` are at least `k`. -/
theorem mem_correctPositions_ge :
    ∀ (as : List QuizQuestionAnswer) (k j : Nat), j ∈ correctPositions as k → k ≤ j := by
  intro as
  induction as with
  | nil => intro k j h; simp [correctPositions] at h
  | cons a as ih =>
    intro k j h
    by_cases hc : a.is_correct
    · rw [correctPositions, if_pos hc] at h
      rcases List.mem_cons.mp h with h1 | h2
      · omega
      · have := ih (k + 1) j h2
        omega
    · rw [correctPositions, if_neg hc] at h
      have := ih (k + 1) j h
      omega

/-- Correct positions counted from `k` are below `k` plus the answer count. -/
theorem mem_correctPositions_lt :
    ∀ (as : List QuizQuestionAnswer) (k j : Nat),
      j ∈ correctPositions as k → j < k + as.length := by
  intro as
  induction as with
  | nil => intro k j h; simp [correctPositions] at h
  | cons a as ih =>
    intro k j h
    by_cases hc : a.is_correct
    · rw [correctPositions, if_pos hc] at h
      rcases List.mem_cons.mp h with h1 | h2
      · simp only [List.length_cons]; omega
      · have := ih (k + 1) j h2
        simp only [List.length_cons]; omega
    · rw [correctPositions, if_neg hc] at h
      have := ih (k + 1) j h
      simp only [List.length_cons]; omega

/-- There are as many correct positions as correct answers. -/
theorem correctPositions_length :
    ∀ (as : List QuizQuestionAnswer) (k : Nat),
      (correctPositions as k).length = countCorrect as := by
  intro as
  induction as with
  | nil => intro k; rfl
  | cons a as ih =>
    intro k
    have hi := ih (k + 1)
    unfold countCorrect at hi ⊢
    by_cases hc : a.is_correct
    · rw [correctPositions, if_pos hc]
      simp [List.filter_cons, hc, hi]
    · rw [correctPositions, if_neg hc]
      simp [List.filter_cons, hc, hi]

/-- Correct positions depend only on the correctness flags. -/
theorem correctPositions_eq_of_flags :
    ∀ (as bs : List QuizQuestionAnswer),
      as.map (fun a => a.is_correct) = bs.map (fun a => a.is_correct) →
      ∀ k, correctPositions as k = correctPositions bs k := by
  intro as
  induction as with
  | nil =>
    intro bs h k
    cases bs with
    | nil => rfl
    | cons b bs => simp at h
  | cons a as ih =>
    intro bs h k
    cases bs with
    | nil => simp at h
    | cons b bs =>
      simp only [List.map_cons, List.cons.injEq] at h
      obtain ⟨hab, htl⟩ := h
      by_cases hc : a.is_correct
      · rw [correctPositions, if_pos hc, correctPositions, if_pos (hab ▸ hc), ih bs htl (k + 1)]
      · rw [correctPositions, if_neg hc, correctPositions, if_neg (hab ▸ hc), ih bs htl (k + 1)]

/-- The number of correct answers depends only on the correctness flags. -/
theorem countCorrect_eq_of_flags (as bs : List QuizQuestionAnswer)
    (h : as.map (fun a => a.is_correct) = bs.map (fun a => a.is_correct)) :
    countCorrect as = countCorrect bs := by
  rw [← correctPositions_length as 1, ← correctPositions_length bs 1,
    correctPositions_eq_of_flags as bs h 1]

/-- One imported answer per nonblank cell. -/
theorem buildAnswersAux_length (idxs : List Nat) :
    ∀ (cells : List String) (k : Nat), (buildAnswersAux idxs cells k).length = cells.length := by
  intro cells
  induction cells with
  | nil => intro k; rfl
  | cons c cs ih => intro k; simp [buildAnswersAux, ih]

/-- Imported answer texts are the parsed cells in order. -/
theorem buildAnswersAux_texts (idxs : List Nat) :
    ∀ (cells : List String) (k : Nat),
      (buildAnswersAux idxs cells k).map (fun a => a.text) = cells.map fromPlainText := by
  intro cells
  induction cells with
  | nil => intro k; rfl
  | cons c cs ih => intro k; simp [buildAnswersAux, ih]

/-- Rebuilding answers from the correct positions of an answer list restores
its correctness flags, cell for cell. -/
theorem buildAnswersAux_flags :
    ∀ (as : List QuizQuestionAnswer) (cells : List String) (k : Nat) (idxs : List Nat),
      cells.length = as.length →
      (∀ j, k ≤ j → (idxs.contains j = true ↔ j ∈ correctPositions as k)) →
      (buildAnswersAux idxs cells k).map (fun a => a.is_correct) =
        as.map (fun a => a.is_correct) := by
  intro as
  induction as with
  | nil =>
    intro cells k idxs hlen _
    cases cells with
    | nil => rfl
    | cons c cs => simp at hlen
  | cons a as ih =>
    intro cells k idxs hlen hmem
    cases cells with
    | nil => simp at hlen
    | cons c cs =>
      simp only [List.length_cons, Nat.succ.injEq] at hlen
      simp only [buildAnswersAux, List.map_cons, List.cons.injEq]
      constructor
      · by_cases hc : a.is_correct
        · rw [hc]
          rw [(hmem k (Nat.le_refl k))]
          rw [correctPositions, if_pos hc]
          exact List.mem_cons_self k _
        · have hfalse : a.is_correct = false := by
            cases hval : a.is_correct
            · rfl
            · exact absurd hval hc
          cases hcontains : idxs.contains k
          · exact hfalse.symm
          · have hk : k ∈ correctPositions (a :: as) k :=
              (hmem k (Nat.le_refl k)).mp hcontains
            rw [correctPositions, if_neg hc] at hk
            have := mem_correctPositions_ge as (k + 1) k hk
            omega
      · refine ih cs (k + 1) idxs hlen ?_
        intro j hj
        have h1 := hmem j (by omega)
        by_cases hc : a.is_correct
        · rw [correctPositions, if_pos hc] at h1
          rw [h1, List.mem_cons]
          constructor
          · intro h2
            rcases h2 with h2 | h2
            · omega
            · exact h2
          · intro h2
            exact Or.inr h2
        · rw [correctPositions, if_neg hc] at h1
          exact h1

/-- Validity depends only on the question form, the correctness flags and
the answer count. -/
theorem validQuestionData_congr (a b : QuizQuestionData)
    (hform : a.question_type = b.question_type)
    (hflags : a.answers.map (fun x => x.is_correct) = b.answers.map (fun x => x.is_correct))
    (hlen : a.answers.length = b.answers.length) :
    validQuestionData a = validQuestionData b := by
  have hcount := countCorrect_eq_of_flags a.answers b.answers hflags
  unfold validQuestionData
  rw [hform, hcount, hlen]

/-- Unfolding of `importRow` on a row whose label resolves, whose
`CorrectAnswer` cell parses, whose indices are all in range and whose built
payload is valid. -/
theorem importRow_eq_ok (row : TabularRow) (form : QuestionForm) (idxs : List Nat)
    (h1 : labelForm row.typeCol = some form)
    (h2 : parseIndices row.correctAnswer = some idxs)
    (h3 : idxs.all (fun i => 1 ≤ i && i ≤ (row.answers.filter (fun c => c != "")).length) = true)
    (h4 : validQuestionData (importedData row form idxs) = true) :
    importRow row = .ok (importedData row form idxs) := by
  unfold importRow
  rw [h1]
  show (match parseIndices row.correctAnswer with
        | none => Except.error RowErrorCode.malformedCorrectAnswer
        | some idxs =>
          if idxs.all (fun i => 1 ≤ i && i ≤ (row.answers.filter (fun c => c != "")).length) then
            if validQuestionData (importedData row form idxs) then
              Except.ok (importedData row form idxs)
            else Except.error RowErrorCode.invalidAnswerOrCorrectCount
          else Except.error RowErrorCode.correctIndexOutOfRange) =
      Except.ok (importedData row form idxs)
  rw [h2]
  show (if idxs.all (fun i => 1 ≤ i && i ≤ (row.answers.filter (fun c => c != "")).length) then
          if validQuestionData (importedData row form idxs) then
            Except.ok (importedData row form idxs)
          else Except.error RowErrorCode.invalidAnswerOrCorrectCount
        else Except.error RowErrorCode.correctIndexOutOfRange) =
      Except.ok (importedData row form idxs)
  rw [if_pos h3, if_pos h4]

/-- A valid payload has at least one correct answer. -/
theorem one_le_countCorrect (q : QuizQuestionData) (hv : validQuestionData q = true) :
    1 ≤ countCorrect q.answers := by
  unfold validQuestionData at hv
  cases hq : q.question_type <;> rw [hq] at hv <;> simp at hv <;> omega

/-- Exporting a valid question with nonblank answer texts and importing the
row back yields exactly the payload `importedData` of the exported row, and
that payload agrees with the original on the question form, the answer
count, the correct positions and every plain-text projection. -/
theorem importRow_exportRow (q : QuizQuestionData)
    (hv : validQuestionData q = true)
    (hnb : ∀ a ∈ q.answers, extractPlainText a.text ≠ "") :
    importRow (exportRow q) =
      .ok (importedData (exportRow q) q.question_type (correctPositions q.answers 1)) ∧
    (importedData (exportRow q) q.question_type
        (correctPositions q.answers 1)).question_type = q.question_type ∧
    (importedData (exportRow q) q.question_type
        (correctPositions q.answers 1)).answers.length = q.answers.length ∧
    correctPositions (importedData (exportRow q) q.question_type
        (correctPositions q.answers 1)).answers 1 = correctPositions q.answers 1 ∧
    extractPlainText (importedData (exportRow q) q.question_type
        (correctPositions q.answers 1)).prompt = extractPlainText q.prompt ∧
    (importedData (exportRow q) q.question_type
        (correctPositions q.answers 1)).answers.map (fun a => extractPlainText a.text) =
      q.answers.map (fun a => extractPlainText a.text) ∧
    extractPlainText (importedData (exportRow q) q.question_type
        (correctPositions q.answers 1)).feedback.correct =
      extractPlainText q.feedback.correct ∧
    extractPlainText (importedData (exportRow q) q.question_type
        (correctPositions q.answers 1)).feedback.incorrect =
      extractPlainText q.feedback.incorrect := by
  have hfilter : ((exportRow q).answers).filter (fun c => c != "") = (exportRow q).answers := by
    rw [List.filter_eq_self]
    intro c hc
    obtain ⟨a, ha, rfl⟩ := List.mem_map.mp hc
    exact bne_iff_ne.mpr (hnb a ha)
  have hlen_cells : ((exportRow q).answers).length = q.answers.length := List.length_map _ _
  have hcount := one_le_countCorrect q hv
  have hne : correctPositions q.answers 1 ≠ [] := by
    intro h
    have hl := correctPositions_length q.answers 1
    rw [h] at hl
    simp only [List.length_nil] at hl
    omega
  have hpos : ∀ i ∈ correctPositions q.answers 1, 1 ≤ i :=
    fun i hi => mem_correctPositions_ge q.answers 1 i hi
  have hparse : parseIndices ((exportRow q).correctAnswer) = some (correctPositions q.answers 1) :=
    parseIndices_encodeIndices (correctPositions q.answers 1) hne hpos
  have hcontains : ∀ j, 1 ≤ j →
      ((correctPositions q.answers 1).contains j = true ↔ j ∈ correctPositions q.answers 1) := by
    intro j _
    simp
  have hflags : (buildAnswersAux (correctPositions q.answers 1) ((exportRow q).answers) 1).map
        (fun a => a.is_correct) = q.answers.map (fun a => a.is_correct) :=
    buildAnswersAux_flags q.answers ((exportRow q).answers) 1 (correctPositions q.answers 1)
      hlen_cells hcontains
  have hall : (correctPositions q.answers 1).all
      (fun i => 1 ≤ i && i ≤ (((exportRow q).answers).filter (fun c => c != "")).length) = true := by
    rw [List.all_eq_true]
    intro i hi
    have h1 := mem_correctPositions_ge q.answers 1 i hi
    have h2 := mem_correctPositions_lt q.answers 1 i hi
    rw [hfilter]
    simp only [Bool.and_eq_true, decide_eq_true_eq]
    rw [hlen_cells]
    omega
  have hanswers : (importedData (exportRow q) q.question_type
      (correctPositions q.answers 1)).answers =
      buildAnswersAux (correctPositions q.answers 1) ((exportRow q).answers) 1 := by
    show buildAnswersAux (correctPositions q.answers 1)
        (((exportRow q).answers).filter (fun c => c != "")) 1 = _
    rw [hfilter]
  have hblen : (importedData (exportRow q) q.question_type
      (correctPositions q.answers 1)).answers.length = q.answers.length := by
    rw [hanswers, buildAnswersAux_length, hlen_cells]
  have hflags2 : (importedData (exportRow q) q.question_type
      (correctPositions q.answers 1)).answers.map (fun a => a.is_correct) =
      q.answers.map (fun a => a.is_correct) := by
    rw [hanswers]
    exact hflags
  have hvalid2 : validQuestionData (importedData (exportRow q) q.question_type
      (correctPositions q.answers 1)) = true := by
    exact (validQuestionData_congr
      (importedData (exportRow q) q.question_type (correctPositions q.answers 1))
      q rfl hflags2 hblen).trans hv
  have htexts : (importedData (exportRow q) q.question_type
      (correctPositions q.answers 1)).answers.map (fun a => extractPlainText a.text) =
      q.answers.map (fun a => extractPlainText a.text) := by
    rw [hanswers]
    have ht := buildAnswersAux_texts (correctPositions q.answers 1) ((exportRow q).answers) 1
    have hsplit : (buildAnswersAux (correctPositions q.answers 1) ((exportRow q).answers) 1).map
        (fun a => extractPlainText a.text) =
        ((buildAnswersAux (correctPositions q.answers 1) ((exportRow q).answers) 1).map
          (fun a => a.text)).map extractPlainText := by
      rw [List.map_map]
      rfl
    rw [hsplit, ht, List.map_map]
    have hid : ∀ c ∈ (exportRow q).answers, (extractPlainText ∘ fromPlainText) c = id c := by
      intro c _
      exact extract_fromPlainText c
    rw [List.map_congr_left hid, List.map_id]
    rfl
  refine ⟨importRow_eq_ok (exportRow q) q.question_type (correctPositions q.answers 1)
      (labelForm_formLabel q.question_type) hparse hall hvalid2,
    rfl, hblen, ?_, ?_, htexts, ?_, ?_⟩
  · exact correctPositions_eq_of_flags _ _ hflags2 1
  · exact extract_fromPlainText (extractPlainText q.prompt)
  · exact extract_fromPlainText (extractPlainText q.feedback.correct)
  · exact extract_fromPlainText (extractPlainText q.feedback.incorrect)

-- ============================================================
-- Helper lemmas: store update and migration walk
-- ============================================================

/-- Updating splits around the first question whose id matches: earlier
questions are untouched, the match is rewritten, later questions (even with
the same id) are untouched. -/
theorem updateQuestionList_split (id : String) (u : QuizDataUpdates) (now : String) :
    ∀ (qs₁ : List QuizQuestion) (q : QuizQuestion) (qs₂ : List QuizQuestion),
      (∀ p ∈ qs₁, p.id ≠ id) → q.id = id →
      updateQuestionList id u now (qs₁ ++ q :: qs₂) =
        qs₁ ++ { q with
          data := objectAssign q.data u,
          metadata := { q.metadata with modified_at := now } } :: qs₂ := by
  intro qs₁
  induction qs₁ with
  | nil =>
    intro q qs₂ _ hq
    simp only [List.nil_append, updateQuestionList]
    rw [if_pos (beq_iff_eq.mpr hq)]
  | cons p ps ih =>
    intro q qs₂ hps hq
    have hp : p.id ≠ id := hps p (List.mem_cons_self p ps)
    simp only [List.cons_append, updateQuestionList]
    rw [if_neg (by simpa using hp)]
    exact congrArg (fun l => p :: l)
      (ih q qs₂ (fun x hx => hps x (List.mem_cons_of_mem p hx)) hq)

/-- A successful migration walk ends on the type's current version and never
changes the artifact's type. -/
theorem resolveAux_ok_current (reg : MigrationRegistry) :
    ∀ (fuel : Nat) (a b : Core.Artifact), resolveAux reg fuel a = .ok b →
      b.type = a.type ∧ b.schema_version = reg.currentVersion b.type := by
  intro fuel
  induction fuel with
  | zero =>
    intro a b h
    unfold resolveAux at h
    by_cases hc : a.schema_version == reg.currentVersion a.type
    · rw [if_pos hc] at h
      cases h
      exact ⟨rfl, beq_iff_eq.mp hc⟩
    · rw [if_neg hc] at h
      cases h
  | succ f ih =>
    intro a b h
    unfold resolveAux at h
    by_cases hc : a.schema_version == reg.currentVersion a.type
    · rw [if_pos hc] at h
      cases h
      exact ⟨rfl, beq_iff_eq.mp hc⟩
    · rw [if_neg hc] at h
      cases hs : findStep reg a.type a.schema_version with
      | none => rw [hs] at h; cases h
      | some s =>
        rw [hs] at h
        have := ih { a with schema_version := s.toVersion, data := s.migrate a.data } b h
        exact this

/-- An artifact already at its type's current version is returned unchanged
by the migration walk, whatever the fuel. -/
theorem resolveAux_of_current (reg : MigrationRegistry) (fuel : Nat) (a : Core.Artifact)
    (h : a.schema_version = reg.currentVersion a.type) :
    resolveAux reg fuel a = .ok a := by
  cases fuel with
  | zero => unfold resolveAux; rw [if_pos (beq_iff_eq.mpr h)]
  | succ f => unfold resolveAux; rw [if_pos (beq_iff_eq.mpr h)]

-- ============================================================
-- Claim theorems
-- ============================================================

/-- C1: the upsert in `SupabaseStorage.saveArtifact` (src/unnamed/part_014
lines 747-757) writes the caller-supplied metadata verbatim, contradicting
the claim (and the interface documentation in `src/types/index.ts`, which
requires preserving `created_by`/`created_at` and refreshing `modified_at`).
Evaluated at the failing input: the store holds artifact `a1` created by
alice; re-saving it with a caller object claiming creator bob makes
`getArtifact` return creator bob, creation date altered, and a
`modified_at` that was not advanced. -/
theorem saveArtifact_upsert_clobbers_audit_metadata :
    getArtifact (saveArtifact c1Store a1Resaved) "a1" = some a1Resaved ∧
    (getArtifact c1Store "a1").map (fun a => a.metadata.created_by) = some "alice" ∧
    (getArtifact (saveArtifact c1Store a1Resaved) "a1").map
      (fun a => a.metadata.created_by) = some "bob" ∧
    (getArtifact (saveArtifact c1Store a1Resaved) "a1").map
      (fun a => a.metadata.created_at) = some "2025-02-02T00:00:00Z" ∧
    (getArtifact (saveArtifact c1Store a1Resaved) "a1").map
      (fun a => a.metadata.modified_at) = some "2025-01-01T00:00:00Z" :=
  ⟨rfl, rfl, rfl, rfl, rfl⟩

/-- C4 counterexample: the claim fails on `src/types/artifact.ts`, whose
`ArtifactMetadata` (lines 28-32) declares no `modified_by` field, so an
`Artifact` of that declaration does not carry all four audit fields. -/
theorem appArtifactMetadata_missing_modified_by :
    "modified_by" ∉ appArtifactMetadataFields := by decide

/-- C4 (amended): every artifact value carries metadata whose audit fields
are present and non-nullable (structurally, the embedded metadata fields are
total `String`s, never `Option`s) — but which audit fields exist depends on
the declaration: the core-framework `ArtifactMetadata`
(`src/types/core/artifact.ts`) has all four, while the app-level
`ArtifactMetadata` (`src/types/artifact.ts`) has only `created_by`,
`created_at` and `modified_at`, with no `modified_by`. -/
theorem artifactMetadata_audit_fields_present :
    "created_by" ∈ appArtifactMetadataFields ∧
    "created_at" ∈ appArtifactMetadataFields ∧
    "modified_at" ∈ appArtifactMetadataFields ∧
    "modified_by" ∉ appArtifactMetadataFields ∧
    "created_by" ∈ coreArtifactMetadataFields ∧
    "created_at" ∈ coreArtifactMetadataFields ∧
    "modified_at" ∈ coreArtifactMetadataFields ∧
    "modified_by" ∈ coreArtifactMetadataFields ∧
    auditFields = coreArtifactMetadataFields := by
  decide

/-- C8: the type guards decide membership purely by structural check on the
`type` tag: `isQuizQuestion` holds exactly on tag `quiz-question`,
`isQuizBank` exactly on tag `question-bank`, and two artifacts with the same
tag (whatever their `data`, ids or metadata) get identical guard verdicts. -/
theorem typeGuards_structural (a b : Core.Artifact) :
    (isQuizQuestion a = true ↔ a.type = "quiz-question") ∧
    (isQuizBank a = true ↔ a.type = "question-bank") ∧
    (a.type = b.type → isQuizQuestion a = isQuizQuestion b ∧ isQuizBank a = isQuizBank b) := by
  refine ⟨beq_iff_eq, beq_iff_eq, ?_⟩
  intro h
  unfold isQuizQuestion isQuizBank
  rw [h]
  exact ⟨rfl, rfl⟩

/-- Witness for C8 at two concrete artifacts sharing the tag
`quiz-question` but differing in id, payload and metadata. -/
theorem typeGuards_structural_witness :
    isQuizQuestion gQuestion = true ∧
    isQuizQuestion gQuestion = isQuizQuestion gQuestionOther ∧
    isQuizBank gQuestion = isQuizBank gQuestionOther := by
  have h := typeGuards_structural gQuestion gQuestionOther
  exact ⟨h.1.mpr rfl, (h.2.2 rfl).1, (h.2.2 rfl).2⟩

/-- C2 (amended): for every valid `QuizQuestion` payload whose answers each
carry nonempty plain text, `importRecords(exportRecords([q]))` yields exactly
one artifact and no errors, and that artifact has the same `questionForm`,
the same number of answers, the same correct-answer positions, and the same
plain-text prompt, answer and feedback content as `q` (rich-text formatting
is not required to survive). The nonblank-answer proviso is forced by the
spec's own rule that blank `Answer` cells are skipped on import (sections
4.5 and 6): a valid question with a blank answer does not round-trip (see
the counterexample). -/
theorem importRecords_exportRecords_roundtrip (q : QuizQuestionData)
    (hv : validQuestionData q = true)
    (hnb : ∀ a ∈ q.answers, extractPlainText a.text ≠ "") :
    ∃ qi, (importRecords (exportRecords [q])).artifacts = [qi] ∧
      (importRecords (exportRecords [q])).errors = [] ∧
      qi.question_type = q.question_type ∧
      qi.answers.length = q.answers.length ∧
      correctPositions qi.answers 1 = correctPositions q.answers 1 ∧
      extractPlainText qi.prompt = extractPlainText q.prompt ∧
      qi.answers.map (fun a => extractPlainText a.text) =
        q.answers.map (fun a => extractPlainText a.text) ∧
      extractPlainText qi.feedback.correct = extractPlainText q.feedback.correct ∧
      extractPlainText qi.feedback.incorrect = extractPlainText q.feedback.incorrect := by
  obtain ⟨himp, hqt, hlen, hcp, hprompt, htexts, hfc, hfi⟩ := importRow_exportRow q hv hnb
  have hrec : importRecords (exportRecords [q]) =
      { artifacts := [importedData (exportRow q) q.question_type (correctPositions q.answers 1)],
        errors := [] } := by
    show importRecordsAux [exportRow q] 1 = _
    unfold importRecordsAux
    rw [himp]
    rfl
  exact ⟨importedData (exportRow q) q.question_type (correctPositions q.answers 1),
    by rw [hrec], by rw [hrec], hqt, hlen, hcp, hprompt, htexts, hfc, hfi⟩

/-- C2 counterexample: `qBlankAnswer` satisfies every section-3 payload
invariant (so it is a valid true/false question), yet the import of its own
export produces no artifact at all — the blank exported `Answer1` cell is
skipped, leaving one answer, which fails the true/false answer-count check.
The claim as stated (round-trip for every valid question) is therefore
false at this input. -/
theorem importRecords_blank_answer_failure :
    validQuestionData qBlankAnswer = true ∧
    (importRecords (exportRecords [qBlankAnswer])).artifacts = [] :=
  ⟨rfl, rfl⟩

/-- Witness for C2 at the concrete valid question `qSample`. -/
theorem importRecords_exportRecords_roundtrip_witness :
    validQuestionData qSample = true ∧
    (importRecords (exportRecords [qSample])).errors = [] ∧
    (importRecords (exportRecords [qSample])).artifacts.length = 1 := by
  have h := importRecords_exportRecords_roundtrip qSample (by decide) (by decide)
  obtain ⟨qi, ha, he, _⟩ := h
  refine ⟨by decide, he, ?_⟩
  rw [ha]
  rfl

/-- C3: `resolveToCurrent` is a no-op (returning the artifact unchanged by
value) on an already-current artifact; and whenever it returns an artifact —
which, per the spec, it does exactly when the needed transitions are
registered, failing with a `MigrationError` otherwise — the result is at the
current version for its (unchanged) type and re-applying `resolveToCurrent`
returns it unchanged, so the function is idempotent. -/
theorem resolveToCurrent_current_and_idempotent (reg : MigrationRegistry) (a : Core.Artifact) :
    (a.schema_version = reg.currentVersion a.type → resolveToCurrent reg a = .ok a) ∧
    (∀ b, resolveToCurrent reg a = .ok b →
      b.type = a.type ∧
      b.schema_version = reg.currentVersion a.type ∧
      resolveToCurrent reg b = .ok b) := by
  constructor
  · intro h
    exact resolveAux_of_current reg reg.steps.length a h
  · intro b h
    obtain ⟨htype, hver⟩ := resolveAux_ok_current reg reg.steps.length a b h
    have hver2 : b.schema_version = reg.currentVersion a.type := by
      rw [← htype]
      exact hver
    exact ⟨htype, hver2, resolveAux_of_current reg reg.steps.length b hver⟩

/-- Witness for C3 at the concrete registry `regSample`: resolving the
behind-version artifact succeeds, lands on the current version, and
re-resolving is a no-op. -/
theorem resolveToCurrent_current_and_idempotent_witness :
    resolveToCurrent regSample aBehind = .ok aMigrated ∧
    aMigrated.schema_version = regSample.currentVersion aBehind.type ∧
    resolveToCurrent regSample aMigrated = .ok aMigrated := by
  have hres : resolveToCurrent regSample aBehind = .ok aMigrated := rfl
  have h := (resolveToCurrent_current_and_idempotent regSample aBehind).2 aMigrated hres
  exact ⟨hres, h.2.1, h.2.2⟩

/-- C5: for an id absent from the store, every read path returns null (or
the empty collection for collection reads), while update and delete surface
the distinguishable `NotFoundError`. -/
theorem storage_notFound_semantics (st : Storage) (id : String)
    (updates : ProjectUpdates) (now : String)
    (hp : ∀ p ∈ st.projects, p.id ≠ id)
    (ha : ∀ a ∈ st.artifacts, a.id ≠ id)
    (hl : ∀ l ∈ st.links, l.id ≠ id) :
    getProject st id = none ∧
    getArtifact st id = none ∧
    ((∀ a ∈ st.artifacts, a.project_id ≠ id) → getArtifacts st id none = []) ∧
    ((∀ l ∈ st.links, l.project_id ≠ id) → getLinks st id = []) ∧
    updateProject st id updates now = .error (.notFound id) ∧
    deleteProject st id = .error (.notFound id) ∧
    deleteArtifact st id = .error (.notFound id) ∧
    deleteLink st id = .error (.notFound id) := by
  have hgp : getProject st id = none := by
    unfold getProject
    rw [List.find?_eq_none]
    intro p hp'
    simpa using hp p hp'
  have hga : getArtifact st id = none := by
    unfold getArtifact
    rw [List.find?_eq_none]
    intro a ha'
    simpa using ha a ha'
  have hpa : st.projects.any (fun p => p.id == id) = false := by
    rw [List.any_eq_false]
    intro p hp'
    simpa using hp p hp'
  have haa : st.artifacts.any (fun a => a.id == id) = false := by
    rw [List.any_eq_false]
    intro a ha'
    simpa using ha a ha'
  have hla : st.links.any (fun l => l.id == id) = false := by
    rw [List.any_eq_false]
    intro l hl'
    simpa using hl l hl'
  refine ⟨hgp, hga, ?_, ?_, ?_, ?_, ?_, ?_⟩
  · intro hap
    unfold getArtifacts
    rw [List.filter_eq_nil_iff]
    intro a ha'
    simp [hap a ha']
  · intro hlp
    unfold getLinks
    rw [List.filter_eq_nil_iff]
    intro l hl'
    simp [hlp l hl']
  · unfold updateProject
    rw [hgp]
  · unfold deleteProject
    rw [if_neg (by simp [hpa])]
  · unfold deleteArtifact
    rw [if_neg (by simp [haa])]
  · unfold deleteLink
    rw [if_neg (by simp [hla])]

/-- Witness for C5 at the empty store and a missing id. -/
theorem storage_notFound_semantics_witness :
    getProject emptyStore "missing" = none ∧
    getArtifact emptyStore "missing" = none ∧
    updateProject emptyStore "missing" { name := none, description := none } "T"
      = .error (.notFound "missing") ∧
    deleteProject emptyStore "missing" = .error (.notFound "missing") ∧
    deleteArtifact emptyStore "missing" = .error (.notFound "missing") := by
  have h := storage_notFound_semantics emptyStore "missing"
    { name := none, description := none } "T" (by decide) (by decide) (by decide)
  exact ⟨h.1, h.2.1, h.2.2.2.2.1, h.2.2.2.2.2.1, h.2.2.2.2.2.2.1⟩

/-- C6: a successful `deleteProject p` (the SQL `ON DELETE CASCADE` on
`artifacts.project_id` and `artifact_links.project_id`) leaves no artifact
and no link of that project: `getArtifacts p` is empty, `getLinks p` is
empty, and `getArtifact` is null for every artifact id formerly in the
project (the side condition that every row sharing that id lies in project
`p` is the primary-key uniqueness of the `artifacts` table). -/
theorem deleteProject_cascades (st : Storage) (p : String) (st' : Storage)
    (h : deleteProject st p = .ok st') :
    getArtifacts st' p none = [] ∧
    getLinks st' p = [] ∧
    (∀ a ∈ st.artifacts, a.project_id = p →
      (∀ b ∈ st.artifacts, b.id = a.id → b.project_id = p) →
      getArtifact st' a.id = none) := by
  unfold deleteProject at h
  by_cases hc : st.projects.any (fun q => q.id == p) = true
  · rw [if_pos hc] at h
    injection h with h
    subst h
    refine ⟨?_, ?_, ?_⟩
    · unfold getArtifacts
      rw [List.filter_eq_nil_iff]
      intro a ha
      have hmem := List.mem_filter.mp ha
      have hne : a.project_id ≠ p := by simpa using hmem.2
      simp [hne]
    · unfold getLinks
      rw [List.filter_eq_nil_iff]
      intro l hlmem
      have hmem := List.mem_filter.mp hlmem
      have hne : l.project_id ≠ p := by simpa using hmem.2
      simp [hne]
    · intro a ha hap huni
      unfold getArtifact
      rw [List.find?_eq_none]
      intro b hb
      have hmem := List.mem_filter.mp hb
      have hbne : b.project_id ≠ p := by simpa using hmem.2
      intro hbeq
      have hid : b.id = a.id := by simpa using hbeq
      exact hbne (huni b hmem.1 hid)
  · rw [if_neg hc] at h
    exact Except.noConfusion h

/-- Witness for C6: deleting project p1 from the concrete store empties its
artifact and link collections and makes its artifact unreadable. -/
theorem deleteProject_cascades_witness :
    getArtifacts { projects := [], artifacts := [a2Other], links := [] } "p1" none = [] ∧
    getLinks { projects := [], artifacts := [a2Other], links := [] } "p1" = [] ∧
    getArtifact { projects := [], artifacts := [a2Other], links := [] } "a1" = none := by
  have hdel : deleteProject cascadeStore "p1" =
      .ok { projects := [], artifacts := [a2Other], links := [] } := rfl
  have h := deleteProject_cascades cascadeStore "p1" _ hdel
  refine ⟨h.1, h.2.1, ?_⟩
  exact h.2.2 a1Stored (by decide) (by decide) (by decide)

/-- C7: `deleteArtifact` leaves the links table (and the projects table)
untouched — in particular links whose `source_id` or `target_id` is the
deleted artifact are neither deleted nor modified, since the
`artifact_links` table carries no foreign key to `artifacts`. -/
theorem deleteArtifact_preserves_links (st : Storage) (id : String) (st' : Storage)
    (h : deleteArtifact st id = .ok st') :
    st'.links = st.links ∧ st'.projects = st.projects := by
  unfold deleteArtifact at h
  by_cases hc : st.artifacts.any (fun a => a.id == id) = true
  · rw [if_pos hc] at h
    injection h with h
    subst h
    exact ⟨rfl, rfl⟩
  · rw [if_neg hc] at h
    exact Except.noConfusion h

/-- Witness for C7: deleting artifact a1 from the concrete store — whose
only link references a1 as target — leaves the links list identical. -/
theorem deleteArtifact_preserves_links_witness :
    ({ projects := [p1Sample], artifacts := [a2Other], links := [l1Sample] } : Storage).links
      = cascadeStore.links ∧
    ({ projects := [p1Sample], artifacts := [a2Other], links := [l1Sample] } : Storage).projects
      = cascadeStore.projects := by
  have hdel : deleteArtifact cascadeStore "a1" =
      .ok { projects := [p1Sample], artifacts := [a2Other], links := [l1Sample] } := rfl
  exact deleteArtifact_preserves_links cascadeStore "a1" _ hdel

/-- C9: when the store contains a question with the given id (the list
splits around its first occurrence), `updateQuestion` rewrites exactly that
question: its `id`, `type`, `schema_version`, `metadata.created_by` and
`metadata.created_at` (and `modified_by`) are preserved, only the data
fields present in the partial update change, `metadata.modified_at` is set
to the current time (hence monotonically non-decreasing whenever the clock
reading is at least the previous value), and every other question, the
current bank and the selection are untouched. -/
theorem updateQuestion_preserves_identity (st : QuizEditorState) (id : String)
    (u : QuizDataUpdates) (now : String)
    (qs₁ : List QuizQuestion) (q : QuizQuestion) (qs₂ : List QuizQuestion)
    (hsplit : st.questions = qs₁ ++ q :: qs₂)
    (hfirst : ∀ p ∈ qs₁, p.id ≠ id)
    (hq : q.id = id) :
    (updateQuestion st id u now).currentBank = st.currentBank ∧
    (updateQuestion st id u now).selectedQuestionId = st.selectedQuestionId ∧
    (updateQuestion st id u now).questions =
      qs₁ ++ { q with data := objectAssign q.data u,
                      metadata := { q.metadata with modified_at := now } } :: qs₂ ∧
    ({ q with data := objectAssign q.data u,
              metadata := { q.metadata with modified_at := now } } : QuizQuestion).id = q.id ∧
    ({ q with data := objectAssign q.data u,
              metadata := { q.metadata with modified_at := now } } : QuizQuestion).type = q.type ∧
    ({ q with data := objectAssign q.data u,
              metadata := { q.metadata with modified_at := now } } : QuizQuestion).schema_version
      = q.schema_version ∧
    ({ q with data := objectAssign q.data u,
              metadata := { q.metadata with modified_at := now } } : QuizQuestion).metadata.created_by
      = q.metadata.created_by ∧
    ({ q with data := objectAssign q.data u,
              metadata := { q.metadata with modified_at := now } } : QuizQuestion).metadata.created_at
      = q.metadata.created_at ∧
    ({ q with data := objectAssign q.data u,
              metadata := { q.metadata with modified_at := now } } : QuizQuestion).metadata.modified_by
      = q.metadata.modified_by ∧
    ({ q with data := objectAssign q.data u,
              metadata := { q.metadata with modified_at := now } } : QuizQuestion).metadata.modified_at
      = now ∧
    (u.question_type = none → (objectAssign q.data u).question_type = q.data.question_type) ∧
    (u.prompt = none → (objectAssign q.data u).prompt = q.data.prompt) ∧
    (u.answers = none → (objectAssign q.data u).answers = q.data.answers) ∧
    (u.feedback = none → (objectAssign q.data u).feedback = q.data.feedback) ∧
    (u.settings = none → (objectAssign q.data u).settings = q.data.settings) ∧
    (q.metadata.modified_at ≤ now →
      q.metadata.modified_at ≤
        ({ q with data := objectAssign q.data u,
                  metadata := { q.metadata with modified_at := now } } : QuizQuestion).metadata.modified_at) := by
  refine ⟨rfl, rfl, ?_, rfl, rfl, rfl, rfl, rfl, rfl, rfl, ?_, ?_, ?_, ?_, ?_, ?_⟩
  · show updateQuestionList id u now st.questions = _
    rw [hsplit]
    exact updateQuestionList_split id u now qs₁ q qs₂ hfirst hq
  · intro h
    show u.question_type.getD q.data.question_type = q.data.question_type
    rw [h]
    rfl
  · intro h
    show u.prompt.getD q.data.prompt = q.data.prompt
    rw [h]
    rfl
  · intro h
    show u.answers.getD q.data.answers = q.data.answers
    rw [h]
    rfl
  · intro h
    show u.feedback.getD q.data.feedback = q.data.feedback
    rw [h]
    rfl
  · intro h
    show u.settings.getD q.data.settings = q.data.settings
    rw [h]
    rfl
  · intro h
    exact h

/-- Witness for C9: updating the prompt of question q1 in the concrete
editor state rewrites exactly that question, stamps the new time, and keeps
bank, selection and the other question intact. -/
theorem updateQuestion_preserves_identity_witness :
    (updateQuestion editorState "q1" promptUpdate "2025-01-03T00:00:00Z").questions =
      [{ storeQuestion with
          data := objectAssign storeQuestion.data promptUpdate,
          metadata := { storeQuestion.metadata with modified_at := "2025-01-03T00:00:00Z" } },
        storeQuestionB] ∧
    (updateQuestion editorState "q1" promptUpdate "2025-01-03T00:00:00Z").currentBank
      = editorState.currentBank ∧
    (updateQuestion editorState "q1" promptUpdate "2025-01-03T00:00:00Z").selectedQuestionId
      = editorState.selectedQuestionId ∧
    (objectAssign storeQuestion.data promptUpdate).answers = storeQuestion.data.answers := by
  have h := updateQuestion_preserves_identity editorState "q1" promptUpdate
    "2025-01-03T00:00:00Z" [] storeQuestion [storeQuestionB] rfl (by decide) rfl
  exact ⟨h.2.2.1, h.1, h.2.1, h.2.2.2.2.2.2.2.2.2.2.2.2.1 rfl⟩

/-- C10: `deleteQuestion` removes exactly the questions with the given id,
keeping the remaining questions in their relative order (the result is a
sublist); the selection becomes null exactly when it equalled the deleted
id and is otherwise unchanged; the current bank is unchanged; and when no
question matches, the questions list is unchanged (the operation is total —
no error path exists). -/
theorem deleteQuestion_removes_exactly (st : QuizEditorState) (id : String) :
    (deleteQuestion st id).currentBank = st.currentBank ∧
    List.Sublist (deleteQuestion st id).questions st.questions ∧
    (∀ q ∈ (deleteQuestion st id).questions, q.id ≠ id) ∧
    (∀ q ∈ st.questions, q.id ≠ id → q ∈ (deleteQuestion st id).questions) ∧
    ((deleteQuestion st id).selectedQuestionId =
      if st.selectedQuestionId = some id then none else st.selectedQuestionId) ∧
    ((∀ q ∈ st.questions, q.id ≠ id) → (deleteQuestion st id).questions = st.questions) := by
  refine ⟨rfl, ?_, ?_, ?_, ?_, ?_⟩
  · exact List.filter_sublist st.questions
  · intro q hq
    have hmem := (List.mem_filter.mp hq).2
    simpa using hmem
  · intro q hq hne
    exact List.mem_filter.mpr ⟨hq, by simpa using hne⟩
  · show (if st.selectedQuestionId == some id then none else st.selectedQuestionId) = _
    by_cases h : st.selectedQuestionId = some id
    · rw [if_pos (beq_iff_eq.mpr h), if_pos h]
    · rw [if_neg (fun hc => h (beq_iff_eq.mp hc)), if_neg h]
  · intro hall
    exact List.filter_eq_self.mpr (fun q hq => by simpa using hall q hq)

/-- Witness for C10: deleting the selected question q1 from the concrete
state clears the selection and keeps the bank; deleting a nonexistent id
leaves the questions list unchanged without error. -/
theorem deleteQuestion_removes_exactly_witness :
    (deleteQuestion editorState "q1").selectedQuestionId = none ∧
    (deleteQuestion editorState "q1").currentBank = editorState.currentBank ∧
    (deleteQuestion editorState "zz").questions = editorState.questions := by
  have h1 := deleteQuestion_removes_exactly editorState "q1"
  have h2 := deleteQuestion_removes_exactly editorState "zz"
  refine ⟨?_, h1.1, ?_⟩
  · rw [h1.2.2.2.2.1]
    decide
  · exact h2.2.2.2.2.2 (by decide)
